import Mathlib

/-!
Shallow embedding of the core of the video-monitoring system
(V4L2 capture wrapper, recording thread, storage-retention manager,
monitor-page segment finalization), together with theorems settling
the specification claims about it.

Machine integers from the C/C++ sources are modelled as `Nat`/`Int`;
byte buffers as `List Nat`; the `double` percentage arithmetic of the
storage manager as exact rational arithmetic over `ℚ`; Qt signals as
explicit event lists returned by the embedded functions.
-/

namespace VideoMonitor

/-! ## V4L2 wrapper: RGB565 → RGB888 pixel conversion (src/v4l2_wrapper.c, rgb565_to_rgb888) -/

/-- Red output byte of one RGB565 pixel: `r = (p >> 11) & 0x1F; (r << 3) | (r >> 2)`. -/
def redChannel (p : Nat) : Nat :=
  let r := (p >>> 11) &&& 0x1F
  (r <<< 3) ||| (r >>> 2)

/-- Green output byte of one RGB565 pixel: `g = (p >> 5) & 0x3F; (g << 2) | (g >> 4)`. -/
def greenChannel (p : Nat) : Nat :=
  let g := (p >>> 5) &&& 0x3F
  (g <<< 2) ||| (g >>> 4)

/-- Blue output byte of one RGB565 pixel: `b = p & 0x1F; (b << 3) | (b >> 2)`. -/
def blueChannel (p : Nat) : Nat :=
  let b := p &&& 0x1F
  (b <<< 3) ||| (b >>> 2)

/-- Embedding of `rgb565_to_rgb888` (src/v4l2_wrapper.c lines 69-92): for each input
pixel, in input order, emit the three bytes R, G, B produced by the bit
expansion of the source. The source writes `dst[i*3+0..2]` for `src[i]`, i.e. the concatenation
of the per-pixel triples. -/
def rgb565_to_rgb888 : List Nat → List Nat
  | [] => []
  | p :: ps => redChannel p :: greenChannel p :: blueChannel p :: rgb565_to_rgb888 ps

/-! ## V4L2 wrapper: buffer allocation (src/v4l2_wrapper.c, v4l2_init_buffer) -/

/-- `FRAMEBUFFER_COUNT` from src/v4l2_wrapper.c line 27. -/
def FRAMEBUFFER_COUNT : Nat := 3

/-- Oracle describing how the driver responds during one run of `v4l2_init_buffer`:
whether `VIDIOC_REQBUFS` succeeds, how many buffers it actually grants
(`reqbuf.count` after the ioctl), and whether `VIDIOC_QUERYBUF` and `mmap`
succeed for each buffer index. -/
structure DriverBehavior where
  reqbufsOk : Bool
  grantedCount : Nat
  queryOk : Nat → Bool
  mmapOk : Nat → Bool

/-- The mapping loop of `v4l2_init_buffer` (src/v4l2_wrapper.c lines 257-293),
iterating `i` from `lo` up to `FRAMEBUFFER_COUNT`. Returns the C return code and
the list of buffer indices that are still mmap-ed when the function returns.
The source contains no `munmap` call on any path, so on both failure returns the
buffers mapped so far stay mapped. -/
def v4l2InitBufferLoop (d : DriverBehavior) : Nat → List Nat → Int × List Nat
  | 0, mapped => (0, mapped)
  | Nat.succ rest, mapped =>
    let i := FRAMEBUFFER_COUNT - Nat.succ rest
    if d.queryOk i = false then (-1, mapped)
    else if d.mmapOk i = false then (-1, mapped)
    else v4l2InitBufferLoop d rest (mapped ++ [i])

/-- Embedding of `v4l2_init_buffer` (src/v4l2_wrapper.c lines 223-296).
After `VIDIOC_REQBUFS`, the source only prints a warning when
`reqbuf.count < FRAMEBUFFER_COUNT` (the error return is commented out), so the
result does not depend on `grantedCount`; the loop then always runs over all
`FRAMEBUFFER_COUNT` indices. Result: (return code, indices left mmap-ed). -/
def v4l2_init_buffer (d : DriverBehavior) : Int × List Nat :=
  if d.reqbufsOk = false then (-1, [])
  else v4l2InitBufferLoop d FRAMEBUFFER_COUNT []

/-! ## RecordingThread (src/recordingthread.cpp / src/recordingthread.h) -/

/-- Embedding of the `FrameData` struct (src/recordingthread.h lines 153-174):
an owned byte payload plus the size passed to the constructor. -/
structure FrameData where
  data : List Nat
  size : Int
deriving DecidableEq

/-- The `FrameData(src, s)` constructor: allocates `s` bytes and `memcpy`s them
from the source buffer, so the stored payload is a fresh copy of the first `s`
bytes of `src`. -/
def FrameData.copy (src : List Nat) (s : Int) : FrameData :=
  { data := src.take s.toNat, size := s }

/-- State of a `RecordingThread` relevant to the claims: recording flag, output
file path and dimensions, per-segment frame counter (`m_frameCount`), session
totals, the FIFO frame queue, segment-timer and codec/container state (the
FFmpeg contexts are abstracted to a readiness flag). -/
structure RecState where
  isRecording : Bool
  filePath : String
  width : Int
  height : Int
  frameCount : Int
  totalFrames : Int
  shouldExit : Bool
  frameQueue : List FrameData
  segmentTimerActive : Bool
  autoSegmentation : Bool
  recorderReady : Bool
deriving DecidableEq

/-- Embedding of `RecordingThread::startRecording` (src/recordingthread.cpp
lines 88-142). `initOk` abstracts the success of `initRecorder()` (FFmpeg
codec/container setup). Returns (return value, new state). The already-recording
early return (lines 92-94) happens before any assignment. -/
def startRecording (s : RecState) (initOk : Bool) (filePath : String)
    (width height : Int) : Bool × RecState :=
  if s.isRecording then (false, s)
  else
    let s1 : RecState :=
      { s with filePath := filePath, width := width, height := height,
               frameCount := 0, totalFrames := 0, shouldExit := false }
    if initOk = false then (false, s1)
    else
      let s2 : RecState := { s1 with isRecording := true, recorderReady := true }
      let s3 : RecState :=
        if s2.autoSegmentation then { s2 with segmentTimerActive := true } else s2
      (true, s3)

/-- Embedding of `RecordingThread::addFrameToQueue` (src/recordingthread.cpp
lines 192-206). `frameData = none` models a null pointer. On acceptance a
fresh `FrameData` copy of the payload is appended at the back of the queue. -/
def addFrameToQueue (s : RecState) (frameData : Option (List Nat)) (size : Int) :
    Bool × RecState :=
  if s.isRecording = false ∨ frameData = none ∨ size ≤ 0 then (false, s)
  else
    match frameData with
    | some src =>
      (true, { s with frameQueue := s.frameQueue ++ [FrameData.copy src size] })
    | none => (false, s)

/-- Embedding of `RecordingThread::processFrame` (src/recordingthread.cpp
lines 557-592): on a valid frame while recording, the presentation timestamp
`m_frame->pts = m_frameCount++` is assigned, and the per-session counters are
updated. Returns (return value, assigned pts if any, new state). -/
def processFrame (s : RecState) (fd : FrameData) : Bool × Option Int × RecState :=
  if s.isRecording = false ∨ fd.data = [] ∨ fd.size ≤ 0 then (false, none, s)
  else
    (true, some s.frameCount,
     { s with frameCount := s.frameCount + 1, totalFrames := s.totalFrames + 1 })

/-- The consumer side of the worker loop `RecordingThread::run`
(src/recordingthread.cpp lines 223-284) restricted to one recording segment:
frames are dequeued from the front of the FIFO in order and handed to
`processFrame`. Returns the final state and the list of (frame, pts) pairs
actually encoded, in processing order. -/
def processFrames (s : RecState) : List FrameData → RecState × List (FrameData × Int)
  | [] => (s, [])
  | fd :: fds =>
    let step := processFrame s fd
    let rest := processFrames step.2.2 fds
    match step.2.1 with
    | some pts => (rest.1, (fd, pts) :: rest.2)
    | none => (rest.1, rest.2)

/-! ## StorageManager (src/homepage.h, storagemanager.cpp part) -/

/-- Snapshot of what `QStorageInfo` reports for the storage path. -/
structure StorageSnapshot where
  isValid : Bool
  isReady : Bool
  bytesAvailable : Int
  bytesTotal : Int

/-- Events emitted by the storage manager; `lowStorageSpace` carries available
bytes, total bytes and the available percentage (exact rational in this model,
`double` in the source). -/
inductive StorageEvent where
  | lowStorageSpace (availableBytes totalBytes : Int) (availablePercent : ℚ)
deriving DecidableEq

/-- Events emitted by the cleanup path of the storage manager. -/
inductive CleanupEvent where
  | cleanupCompleted (dirName : String) (freedBytes : Int)
  | cleanupFailed (message : String)
deriving DecidableEq

/-- Embedding of `StorageManager::checkStorageSpace` (src/homepage.h lines
208-256) as a pure function of the storage snapshot and the configured
minimum percentage. Returns (return value, emitted events). Division is only
performed under the `0 < totalBytes` guard, exactly as in the source. -/
def checkStorageSpace (snap : StorageSnapshot) (minFreeSpacePercent : Int) :
    Bool × List StorageEvent :=
  if snap.isValid = false ∨ snap.isReady = false then
    (false, [StorageEvent.lowStorageSpace 0 0 0])
  else
    let availableBytes := snap.bytesAvailable
    let totalBytes := snap.bytesTotal
    if 0 < totalBytes then
      let availablePercent : ℚ := (availableBytes : ℚ) / (totalBytes : ℚ) * 100
      if availablePercent < (minFreeSpacePercent : ℚ) then
        (false, [StorageEvent.lowStorageSpace availableBytes totalBytes availablePercent])
      else
        (true, [])
    else
      (false, [StorageEvent.lowStorageSpace availableBytes totalBytes 0])

/-- The filter used by `StorageManager::getOldestDateDir` (src/homepage.h line
447): `QRegExp("^\\d\x7b8\x7d$")` — the name is exactly 8 decimal digits. -/
def isDateDirName (s : String) : Bool :=
  s.length == 8 && s.data.all Char.isDigit

/-- Lexicographic comparison of character lists by code point, the order
underlying `QString::operator<` (UTF-16 code-unit comparison; identical to
code-point comparison on the names handled here). -/
def charListLt : List Char → List Char → Bool
  | _, [] => false
  | [], _ :: _ => true
  | a :: as, b :: bs =>
    if a.toNat < b.toNat then true
    else if b.toNat < a.toNat then false
    else charListLt as bs

/-- `a < b` on strings, lexicographically by code point. -/
def strLtB (a b : String) : Bool :=
  charListLt a.data b.data

/-- `a ≤ b` on strings, lexicographically by code point. -/
def strLeB (a b : String) : Bool :=
  !(strLtB b a)

/-- Insert a string into a sorted list, keeping it sorted (ascending). -/
def orderedInsertStr (a : String) : List String → List String
  | [] => [a]
  | b :: bs => if strLeB a b then a :: b :: bs else b :: orderedInsertStr a bs

/-- Ascending `std::sort` on a list of strings (insertion sort; `std::sort` is
only specified up to the ordering, and the elements here are distinct names). -/
def sortStrings : List String → List String
  | [] => []
  | a :: as => orderedInsertStr a (sortStrings as)

/-- Embedding of `StorageManager::getOldestDateDir` (src/homepage.h lines
431-471) on the list of immediate subdirectory names of the storage root:
filter to 8-digit names, then `std::sort` ascending and take the first;
`none` models the empty `QString` returned when nothing matches. -/
def getOldestDateDir (dirs : List String) : Option String :=
  let validDateDirs := dirs.filter isDateDirName
  (sortStrings validDateDirs).head?

/-- Result of one `cleanupOldestDay` call: the C++ return value, the directory
on which `removeRecursively` was invoked (if any), and the emitted events. -/
structure CleanupResult where
  success : Bool
  deletedDir : Option String
  events : List CleanupEvent
deriving DecidableEq

/-- Embedding of `StorageManager::cleanupOldestDay` (src/homepage.h lines
271-313). `dirs` is the current listing of immediate subdirectories of the
storage root (so the selected directory exists and the re-existence check of
the source passes); `removeOk` tells whether `QDir::removeRecursively`
succeeds; `dirSize` is the recursive size computed by `getDirSize`. -/
def cleanupOldestDay (dirs : List String) (removeOk : String → Bool)
    (dirSize : String → Int) : CleanupResult :=
  match getOldestDateDir dirs with
  | none =>
    { success := false, deletedDir := none,
      events := [CleanupEvent.cleanupFailed "no date directory to clean"] }
  | some oldestDirName =>
    if removeOk oldestDirName then
      { success := true, deletedDir := some oldestDirName,
        events := [CleanupEvent.cleanupCompleted oldestDirName (dirSize oldestDirName)] }
    else
      { success := false, deletedDir := some oldestDirName,
        events := [CleanupEvent.cleanupFailed "removal failed"] }

/-- Mutable configuration state of a `StorageManager` instance. -/
structure SMState where
  storagePath : String
  minFreeSpacePercent : Int
  timerActive : Bool
  timerInterval : Int
deriving DecidableEq

/-- The `StorageManager` constructor (src/homepage.h lines 94-113): stores the
path, sets the threshold to 10 and leaves the auto-check timer stopped. -/
def mkStorageManager (storagePath : String) : SMState :=
  { storagePath := storagePath, minFreeSpacePercent := 10,
    timerActive := false, timerInterval := 0 }

/-- Embedding of `StorageManager::setMinFreeSpacePercent` (src/homepage.h lines
171-185): out-of-range values are clamped to the nearest bound. -/
def setMinFreeSpacePercent (s : SMState) (percent : Int) : SMState :=
  let p := if percent < 0 then 0 else if percent > 100 then 100 else percent
  { s with minFreeSpacePercent := p }

/-- Embedding of `StorageManager::setStoragePath` (src/homepage.h lines
138-153): only the path changes. -/
def setStoragePath (s : SMState) (path : String) : SMState :=
  { s with storagePath := path }

/-- Embedding of `StorageManager::startAutoCheck` (src/homepage.h lines
322-336). Returns (new state, whether the immediate `performAutoCheck` cycle
ran). For `interval ≤ 0` the source warns and returns before doing anything. -/
def startAutoCheck (s : SMState) (interval : Int) : SMState × Bool :=
  if interval ≤ 0 then (s, false)
  else ({ s with timerActive := true, timerInterval := interval }, true)

/-- Embedding of `StorageManager::stopAutoCheck` (src/homepage.h lines
343-351). -/
def stopAutoCheck (s : SMState) : SMState :=
  { s with timerActive := false }

/-- The public operations of the retention manager that touch its mutable
state; `checkTick` is a `performAutoCheck` timer tick, which reads but never
writes this configuration state. -/
inductive SMOp where
  | setPercent (percent : Int)
  | setPath (path : String)
  | startAuto (interval : Int)
  | stopAuto
  | checkTick

/-- One step of the retention manager state machine. -/
def applyOp (s : SMState) : SMOp → SMState
  | SMOp.setPercent p => setMinFreeSpacePercent s p
  | SMOp.setPath path => setStoragePath s path
  | SMOp.startAuto i => (startAutoCheck s i).1
  | SMOp.stopAuto => stopAutoCheck s
  | SMOp.checkTick => s

/-! ## MonitorPage segment finalization (src/unnamed/part_000, stopRecording) -/

/-- Outcome of the rename step of `MonitorPage::stopRecording`: the final value
of `m_currentVideoFile`, whether the rename was performed, and whether any
error was raised (the source only logs warnings; it never raises an error on
this path). -/
structure RenameOutcome where
  currentVideoFile : String
  renamed : Bool
  errorRaised : Bool
deriving DecidableEq

/-- The finalized file name built at src/unnamed/part_000 lines 510-512:
start time and end time in HH:mm format joined by a dash, with extension
.mp4. -/
def newVideoFileName (startTimeStr endTimeStr : String) : String :=
  startTimeStr ++ "-" ++ endTimeStr ++ ".mp4"

/-- Embedding of the rename step of `MonitorPage::stopRecording`
(src/unnamed/part_000 lines 514-537). `targetExists` models
`QFile::exists(newVideoFilePath)` and `renameOk` the result of
`QFile::rename`. -/
def finalizeSegment (currentVideoFile dirPath startTimeStr endTimeStr : String)
    (targetExists renameOk : Bool) : RenameOutcome :=
  if currentVideoFile = "" then
    { currentVideoFile := currentVideoFile, renamed := false, errorRaised := false }
  else
    let newVideoFilePath := dirPath ++ "/" ++ newVideoFileName startTimeStr endTimeStr
    if targetExists then
      { currentVideoFile := currentVideoFile, renamed := false, errorRaised := false }
    else if renameOk then
      { currentVideoFile := newVideoFilePath, renamed := true, errorRaised := false }
    else
      { currentVideoFile := currentVideoFile, renamed := false, errorRaised := false }

/-! ## Helper lemmas -/

/-- Bit replication for a 5-bit channel: the top 5 bits of `(r << 3) | (r >> 2)`
are `r` and the low 3 bits are the top 3 bits of `r`. -/
theorem bitRepl5 :
    ∀ r, r < 32 →
      ((r <<< 3) ||| (r >>> 2)) >>> 3 = r ∧ ((r <<< 3) ||| (r >>> 2)) % 8 = r >>> 2 := by
  decide

/-- Bit replication for a 6-bit channel: the top 6 bits of `(g << 2) | (g >> 4)`
are `g` and the low 2 bits are the top 2 bits of `g`. -/
theorem bitRepl6 :
    ∀ g, g < 64 →
      ((g <<< 2) ||| (g >>> 4)) >>> 2 = g ∧ ((g <<< 2) ||| (g >>> 4)) % 4 = g >>> 4 := by
  decide

theorem and31_lt (p : Nat) : p &&& 31 < 32 :=
  Nat.lt_succ_of_le Nat.and_le_right

theorem and63_lt (p : Nat) : p &&& 63 < 64 :=
  Nat.lt_succ_of_le Nat.and_le_right

/-- The output of the converter is the per-pixel concatenation of R, G, B
bytes: positions `3i`, `3i+1`, `3i+2` hold the channels of input pixel `i`. -/
theorem rgb565_get (ps : List Nat) (i : Nat) :
    (rgb565_to_rgb888 ps)[3 * i]? = (ps[i]?).map redChannel ∧
    (rgb565_to_rgb888 ps)[3 * i + 1]? = (ps[i]?).map greenChannel ∧
    (rgb565_to_rgb888 ps)[3 * i + 2]? = (ps[i]?).map blueChannel := by
  induction ps generalizing i with
  | nil => simp [rgb565_to_rgb888]
  | cons p ps ih =>
    cases i with
    | zero => simp [rgb565_to_rgb888]
    | succ j =>
      have hc : (p :: ps)[j + 1]? = ps[j]? := List.getElem?_cons_succ
      refine ⟨?_, ?_, ?_⟩
      · rw [show 3 * (j + 1) = 3 * j + 1 + 1 + 1 by ring]
        simp only [rgb565_to_rgb888, List.getElem?_cons_succ, hc]
        exact (ih j).1
      · rw [show 3 * (j + 1) + 1 = 3 * j + 1 + 1 + 1 + 1 by ring]
        simp only [rgb565_to_rgb888, List.getElem?_cons_succ, hc]
        exact (ih j).2.1
      · rw [show 3 * (j + 1) + 2 = 3 * j + 2 + 1 + 1 + 1 by ring]
        simp only [rgb565_to_rgb888, List.getElem?_cons_succ, hc]
        exact (ih j).2.2

theorem rgb565_length (ps : List Nat) : (rgb565_to_rgb888 ps).length = 3 * ps.length := by
  induction ps with
  | nil => rfl
  | cons p ps ih =>
    simp [rgb565_to_rgb888, ih]
    ring

/-! ## Claim C1 -/

/-- C1: for every 16-bit RGB565 input pixel p, the converted 24-bit pixel
satisfies exactly R = (r << 3) | (r >> 2) with r = (p >> 11) & 0x1F,
G = (g << 2) | (g >> 4) with g = (p >> 5) & 0x3F, B = (b << 3) | (b >> 2)
with b = p & 0x1F; the top bits of each output channel equal the source
channel bits and its low bits replicate the high bits of that same channel; and for n input
pixels the output is exactly 3n bytes laid out R,G,B per pixel in input
order. -/
theorem rgb565_to_rgb888_spec (ps : List Nat) (p : Nat) (hp : p < 65536) :
    (rgb565_to_rgb888 ps).length = 3 * ps.length
    ∧ (∀ i : Nat,
        (rgb565_to_rgb888 ps)[3 * i]? = (ps[i]?).map redChannel
        ∧ (rgb565_to_rgb888 ps)[3 * i + 1]? = (ps[i]?).map greenChannel
        ∧ (rgb565_to_rgb888 ps)[3 * i + 2]? = (ps[i]?).map blueChannel)
    ∧ redChannel p = ((((p >>> 11) &&& 0x1F) <<< 3) ||| (((p >>> 11) &&& 0x1F) >>> 2))
    ∧ greenChannel p = ((((p >>> 5) &&& 0x3F) <<< 2) ||| (((p >>> 5) &&& 0x3F) >>> 4))
    ∧ blueChannel p = (((p &&& 0x1F) <<< 3) ||| ((p &&& 0x1F) >>> 2))
    ∧ (redChannel p >>> 3 = (p >>> 11) &&& 0x1F
        ∧ redChannel p % 8 = ((p >>> 11) &&& 0x1F) >>> 2)
    ∧ (greenChannel p >>> 2 = (p >>> 5) &&& 0x3F
        ∧ greenChannel p % 4 = ((p >>> 5) &&& 0x3F) >>> 4)
    ∧ (blueChannel p >>> 3 = p &&& 0x1F
        ∧ blueChannel p % 8 = (p &&& 0x1F) >>> 2) := by
  refine ⟨rgb565_length ps, rgb565_get ps, rfl, rfl, rfl, ?_, ?_, ?_⟩
  · exact bitRepl5 ((p >>> 11) &&& 0x1F) (and31_lt (p >>> 11))
  · exact bitRepl6 ((p >>> 5) &&& 0x3F) (and63_lt (p >>> 5))
  · exact bitRepl5 (p &&& 0x1F) (and31_lt p)

/-- C1 witness: the theorem instantiated at a concrete pixel list and pixel. -/
theorem rgb565_to_rgb888_spec_witness :
    (rgb565_to_rgb888 [0xF800, 0x07E0]).length = 3 * 2
    ∧ redChannel 0xF800 >>> 3 = (0xF800 >>> 11) &&& 0x1F :=
  ⟨(rgb565_to_rgb888_spec [0xF800, 0x07E0] 0xF800 (by decide)).1,
   ((rgb565_to_rgb888_spec [0xF800, 0x07E0] 0xF800 (by decide)).2.2.2.2.2.1).1⟩

/-! ## Claim C2 -/

/-- C2: with a valid and ready volume and positive total bytes,
`checkStorageSpace` returns true exactly when available/total × 100 is at
least the configured minimum percentage, and when the percentage is below the
minimum it returns false and emits a low-space event carrying the exact
available bytes, total bytes and percentage; with total bytes zero it returns
false (the division is never performed) and emits a low-space event; with an
invalid or unready volume it returns false and emits a low-space event. -/
theorem checkStorageSpace_spec (snap : StorageSnapshot) (m : Int) :
    (snap.isValid = true → snap.isReady = true → 0 < snap.bytesTotal →
      ((checkStorageSpace snap m).1 = true ↔
        (m : ℚ) ≤ (snap.bytesAvailable : ℚ) / (snap.bytesTotal : ℚ) * 100))
    ∧ (snap.isValid = true → snap.isReady = true → 0 < snap.bytesTotal →
        (snap.bytesAvailable : ℚ) / (snap.bytesTotal : ℚ) * 100 < (m : ℚ) →
        checkStorageSpace snap m =
          (false, [StorageEvent.lowStorageSpace snap.bytesAvailable snap.bytesTotal
            ((snap.bytesAvailable : ℚ) / (snap.bytesTotal : ℚ) * 100)]))
    ∧ (snap.isValid = true → snap.isReady = true → snap.bytesTotal = 0 →
        checkStorageSpace snap m =
          (false, [StorageEvent.lowStorageSpace snap.bytesAvailable 0 0]))
    ∧ (snap.isValid = false ∨ snap.isReady = false →
        checkStorageSpace snap m = (false, [StorageEvent.lowStorageSpace 0 0 0])) := by
  refine ⟨?_, ?_, ?_, ?_⟩
  · intro hv hr ht
    simp only [checkStorageSpace, hv, hr, ht, Bool.true_eq_false, or_self, if_neg,
      not_false_eq_true, if_pos]
    split
    · rename_i hlt
      exact ⟨fun hfalse => absurd hfalse Bool.false_ne_true,
             fun hle => absurd hlt (not_lt.mpr hle)⟩
    · rename_i hge
      exact ⟨fun _ => le_of_not_lt hge, fun _ => rfl⟩
  · intro hv hr ht hlt
    simp only [checkStorageSpace, hv, hr, ht, Bool.true_eq_false, or_self, if_neg,
      not_false_eq_true, if_pos, hlt, if_true]
  · intro hv hr ht
    simp only [checkStorageSpace, hv, hr, ht, Bool.true_eq_false, or_self, if_neg,
      not_false_eq_true, lt_irrefl, if_false]
  · intro hvr
    rcases hvr with hv | hr
    · simp only [checkStorageSpace, hv, true_or, if_pos]
    · simp only [checkStorageSpace, hr, or_true, if_pos]

/-- C2 witness: a valid, ready volume with 5 of 10 bytes free against a 10%
threshold passes the check. -/
theorem checkStorageSpace_spec_witness :
    (checkStorageSpace (StorageSnapshot.mk true true 5 10) 10).1 = true :=
  ((checkStorageSpace_spec (StorageSnapshot.mk true true 5 10) 10).1
    rfl rfl (by norm_num)).mpr (by norm_num)

/-! ## Claim C3 helpers: properties of the string order and sort -/

theorem charListLt_irrefl : ∀ x, charListLt x x = false := by
  intro x
  induction x with
  | nil => rfl
  | cons a as ih => simp [charListLt, ih]

theorem charListLt_asymm : ∀ x y, charListLt x y = true → charListLt y x = false := by
  intro x
  induction x with
  | nil =>
    intro y h
    cases y with
    | nil => simp [charListLt] at h
    | cons b bs => rfl
  | cons a as ih =>
    intro y h
    cases y with
    | nil => simp [charListLt] at h
    | cons b bs =>
      simp only [charListLt] at h ⊢
      by_cases h1 : a.toNat < b.toNat
      · have h2 : ¬ b.toNat < a.toNat := by omega
        simp [h1, h2]
      · by_cases h2 : b.toNat < a.toNat
        · simp [h1, h2] at h
        · simp only [if_neg h1, if_neg h2] at h ⊢
          simp [ih bs h]

theorem charListLt_negtrans :
    ∀ x y z, charListLt y x = false → charListLt z y = false → charListLt z x = false := by
  intro x
  induction x with
  | nil =>
    intro y z hyx hzy
    cases z with
    | nil => rfl
    | cons c cs => rfl
  | cons a as ih =>
    intro y z hyx hzy
    cases z with
    | nil =>
      cases y with
      | nil => simp [charListLt] at hyx
      | cons b bs => simp [charListLt] at hzy
    | cons c cs =>
      cases y with
      | nil => simp [charListLt] at hyx
      | cons b bs =>
        simp only [charListLt] at hyx hzy ⊢
        by_cases h1 : b.toNat < a.toNat
        · simp [h1] at hyx
        · by_cases h2 : c.toNat < b.toNat
          · simp [h2] at hzy
          · have h3 : ¬ c.toNat < a.toNat := by omega
            simp only [if_neg h1] at hyx
            simp only [if_neg h2] at hzy
            simp only [if_neg h3]
            by_cases h4 : a.toNat < c.toNat
            · simp [h4]
            · simp only [if_neg h4]
              by_cases h5 : a.toNat < b.toNat
              · omega
              · by_cases h6 : b.toNat < c.toNat
                · omega
                · simp only [if_neg h5] at hyx
                  simp only [if_neg h6] at hzy
                  exact ih bs cs hyx hzy

theorem strLeB_refl (a : String) : strLeB a a = true := by
  simp [strLeB, strLtB, charListLt_irrefl]

theorem strLeB_trans (a b c : String) (h1 : strLeB a b = true) (h2 : strLeB b c = true) :
    strLeB a c = true := by
  simp only [strLeB, strLtB, Bool.not_eq_true, Bool.not_eq_eq_eq_not, Bool.not_true] at h1 h2 ⊢
  exact charListLt_negtrans a.data b.data c.data h1 h2

theorem strLeB_total (a b : String) (h : strLeB a b = false) : strLeB b a = true := by
  have h2 : charListLt b.data a.data = true := by
    revert h
    simp [strLeB, strLtB]
  simp [strLeB, strLtB, charListLt_asymm b.data a.data h2]

theorem orderedInsertStr_length (a : String) (l : List String) :
    (orderedInsertStr a l).length = l.length + 1 := by
  induction l with
  | nil => rfl
  | cons b bs ih =>
    simp only [orderedInsertStr]
    by_cases h : strLeB a b = true
    · simp [h]
    · simp only [Bool.not_eq_true] at h
      simp [h, ih]

theorem sortStrings_length (l : List String) : (sortStrings l).length = l.length := by
  induction l with
  | nil => rfl
  | cons a as ih => simp [sortStrings, orderedInsertStr_length, ih]

/-- The head of the sorted list is a member of the input and a lower bound of
it (the selection property of sort-then-take-first). -/
theorem sortStrings_head_min (l : List String) (a : String) (rest : List String)
    (h : sortStrings l = a :: rest) :
    a ∈ l ∧ ∀ x ∈ l, strLeB a x = true := by
  induction l generalizing a rest with
  | nil => simp [sortStrings] at h
  | cons b bs ih =>
    simp only [sortStrings] at h
    cases hsort : sortStrings bs with
    | nil =>
      have hbs : bs = [] := by
        have hlen := sortStrings_length bs
        rw [hsort] at hlen
        exact List.length_eq_zero.mp hlen.symm
      rw [hsort] at h
      simp only [orderedInsertStr] at h
      injection h with h1 h2
      subst h1
      subst hbs
      constructor
      · simp
      · intro x hx
        simp at hx
        subst hx
        exact strLeB_refl _
    | cons hd tl =>
      rw [hsort] at h
      have ihh := ih hd tl hsort
      simp only [orderedInsertStr] at h
      by_cases hle : strLeB b hd = true
      · rw [if_pos hle] at h
        injection h with h1 h2
        subst h1
        constructor
        · exact List.mem_cons_self _ _
        · intro x hx
          rcases List.mem_cons.mp hx with hx | hx
          · subst hx
            exact strLeB_refl _
          · exact strLeB_trans _ hd x hle (ihh.2 x hx)
      · rw [if_neg hle] at h
        injection h with h1 h2
        subst h1
        have hfalse : strLeB b hd = false := by
          simp only [Bool.not_eq_true] at hle
          exact hle
        constructor
        · exact List.mem_cons_of_mem b ihh.1
        · intro x hx
          rcases List.mem_cons.mp hx with hx | hx
          · subst hx
            exact strLeB_total _ _ hfalse
          · exact ihh.2 x hx

/-! ## Claim C3 -/

/-- C3: `cleanupOldestDay` considers only immediate subdirectories whose name
is exactly 8 decimal digits; when none match it returns false and emits a
cleanup-failed event; otherwise the directory selected for deletion is a
matching name that is lexicographically least among the matching names (so a
non-matching directory is never the one deleted); and on the root
{"20230101","20230215","notadate","20221231"} the selection is "20221231". -/
theorem cleanupOldestDay_spec (dirs : List String) (removeOk : String → Bool)
    (dirSize : String → Int) :
    ((∀ d ∈ dirs, isDateDirName d = false) →
        cleanupOldestDay dirs removeOk dirSize =
          { success := false, deletedDir := none,
            events := [CleanupEvent.cleanupFailed "no date directory to clean"] })
    ∧ (∀ victim, (cleanupOldestDay dirs removeOk dirSize).deletedDir = some victim →
        isDateDirName victim = true ∧ victim ∈ dirs
          ∧ ∀ d ∈ dirs, isDateDirName d = true → strLeB victim d = true)
    ∧ getOldestDateDir ["20230101", "20230215", "notadate", "20221231"] =
        some "20221231" := by
  refine ⟨?_, ?_, by decide⟩
  · intro hall
    have hfil : dirs.filter isDateDirName = [] := by
      rw [List.filter_eq_nil_iff]
      intro d hd
      simp [hall d hd]
    have hg : getOldestDateDir dirs = none := by
      simp [getOldestDateDir, hfil, sortStrings]
    simp [cleanupOldestDay, hg]
  · intro victim hvic
    simp only [cleanupOldestDay] at hvic
    cases hgo : getOldestDateDir dirs with
    | none =>
      rw [hgo] at hvic
      simp at hvic
    | some o =>
      rw [hgo] at hvic
      have hov : o = victim := by
        by_cases hro : removeOk o = true
        · simp [hro] at hvic
          exact hvic
        · simp [hro] at hvic
          exact hvic
      subst hov
      simp only [getOldestDateDir] at hgo
      cases hs : sortStrings (dirs.filter isDateDirName) with
      | nil =>
        rw [hs] at hgo
        simp at hgo
      | cons a rest =>
        rw [hs] at hgo
        simp at hgo
        subst hgo
        have hmin := sortStrings_head_min _ a rest hs
        have hmem := List.mem_filter.mp hmin.1
        refine ⟨hmem.2, hmem.1, ?_⟩
        intro d hd hdate
        exact hmin.2 d (List.mem_filter.mpr ⟨hd, hdate⟩)

/-- C3 witness: on a root with no 8-digit directory the call fails with a
cleanup-failed event. -/
theorem cleanupOldestDay_spec_witness :
    cleanupOldestDay ["video"] (fun _ => true) (fun _ => 0) =
      { success := false, deletedDir := none,
        events := [CleanupEvent.cleanupFailed "no date directory to clean"] } :=
  (cleanupOldestDay_spec ["video"] (fun _ => true) (fun _ => 0)).1 (by decide)

/-! ## Claim C4 -/

/-- Processing a run of valid frames while recording yields exactly those
frames in order, with presentation timestamps counting up from the initial
value of `m_frameCount`. -/
theorem processFrames_general (fs : List FrameData) : ∀ s : RecState,
    s.isRecording = true →
    (∀ f ∈ fs, f.data ≠ [] ∧ 0 < f.size) →
    (processFrames s fs).2.map Prod.fst = fs
    ∧ (processFrames s fs).2.map Prod.snd
        = (List.range fs.length).map (fun i => s.frameCount + Int.ofNat i) := by
  induction fs with
  | nil =>
    intro s hrec hval
    simp [processFrames]
  | cons f fs ih =>
    intro s hrec hval
    have hf := hval f (List.mem_cons_self f fs)
    have hcond : ¬ (s.isRecording = false ∨ f.data = [] ∨ f.size ≤ 0) := by
      push_neg
      refine ⟨by simp [hrec], hf.1, ?_⟩
      omega
    have hstep : processFrame s f =
        (true, some s.frameCount,
         { s with frameCount := s.frameCount + 1, totalFrames := s.totalFrames + 1 }) := by
      simp only [processFrame, if_neg hcond]
    have hrec2 : ({ s with frameCount := s.frameCount + 1, totalFrames := s.totalFrames + 1 } : RecState).isRecording = true := hrec
    have ih2 := ih { s with frameCount := s.frameCount + 1, totalFrames := s.totalFrames + 1 }
      hrec2 (fun g hg => hval g (List.mem_cons_of_mem f hg))
    simp only [processFrames, hstep]
    refine ⟨?_, ?_⟩
    · simpa using ih2.1
    · simp only [List.map_cons, List.length_cons]
      rw [List.range_succ_eq_map, List.map_cons, List.map_map]
      congr 1
      · simp
      · rw [ih2.2]
        apply List.map_congr_left
        intro i _
        simp only [Function.comp_apply, Int.ofNat_eq_natCast]
        push_cast
        ring

/-- C4: for every sequence of N valid frames pushed while recording, the
worker processes them in exactly push order (the FIFO queue content), the
presentation timestamps of successive encoded frames within one segment are
exactly 0, 1, ..., N-1, and every successful `startRecording` resets the
counter to 0. -/
theorem recording_fifo_pts_spec (s : RecState) (fs : List FrameData)
    (hrec : s.isRecording = true) (h0 : s.frameCount = 0)
    (hval : ∀ f ∈ fs, f.data ≠ [] ∧ 0 < f.size) :
    (processFrames s fs).2.map Prod.fst = fs
    ∧ (processFrames s fs).2.map Prod.snd = (List.range fs.length).map Int.ofNat
    ∧ ∀ (s0 : RecState) (initOk : Bool) (path : String) (w h : Int),
        (startRecording s0 initOk path w h).1 = true →
        (startRecording s0 initOk path w h).2.frameCount = 0 := by
  have hg := processFrames_general fs s hrec hval
  refine ⟨hg.1, ?_, ?_⟩
  · rw [hg.2, h0]
    apply List.map_congr_left
    intro i _
    simp
  · intro s0 initOk path w h hstart
    by_cases hr : s0.isRecording = true
    · simp [startRecording, hr] at hstart
    · simp only [Bool.not_eq_true] at hr
      by_cases hi : initOk = true
      · simp only [startRecording, hr, Bool.false_eq_true, if_false, hi, Bool.true_eq_false]
        split
        · rfl
        · rfl
      · simp only [Bool.not_eq_true] at hi
        simp [startRecording, hr, hi] at hstart

/-- C4 witness: two one-byte frames pushed from counter 0 receive pts 0 and 1
in push order. -/
theorem recording_fifo_pts_spec_witness :
    (processFrames
      (RecState.mk true "" 0 0 0 0 false [] false true true)
      [FrameData.mk [1] 1, FrameData.mk [2] 1]).2.map Prod.snd = [(0 : Int), 1] := by
  have h := (recording_fifo_pts_spec
    (RecState.mk true "" 0 0 0 0 false [] false true true)
    [FrameData.mk [1] 1, FrameData.mk [2] 1] rfl rfl (by decide)).2.1
  rw [h]
  decide

/-! ## Claim C5 -/

/-- C5: calling startRecording while already recording returns false and
performs no state change at all: the returned state is exactly the input
state (file path, dimensions, frame counters, timers and codec/container
state included). -/
theorem startRecording_already_recording_noop (s : RecState) (initOk : Bool)
    (path : String) (w h : Int) (hrec : s.isRecording = true) :
    startRecording s initOk path w h = (false, s) := by
  simp [startRecording, hrec]

/-- C5 witness: the theorem at a concrete recording state. -/
theorem startRecording_already_recording_noop_witness :
    startRecording (RecState.mk true "/a/b.mp4" 640 480 7 9 false [] true true true)
      true "/c/d.mp4" 320 240 =
      (false, RecState.mk true "/a/b.mp4" 640 480 7 9 false [] true true true) :=
  startRecording_already_recording_noop
    (RecState.mk true "/a/b.mp4" 640 480 7 9 false [] true true true)
    true "/c/d.mp4" 320 240 rfl

/-! ## Claim C6 -/

/-- C6: addFrameToQueue returns false and leaves the queue (and the whole
state) unchanged when the pipeline is not recording, the frame pointer is
null, or the size is non-positive; otherwise it returns true and appends a
fresh copy of the payload at the back of the queue. -/
theorem addFrameToQueue_spec (s : RecState) (frameData : Option (List Nat)) (size : Int) :
    ((s.isRecording = false ∨ frameData = none ∨ size ≤ 0) →
        addFrameToQueue s frameData size = (false, s))
    ∧ (∀ src, s.isRecording = true → frameData = some src → 0 < size →
        addFrameToQueue s frameData size =
          (true, { s with frameQueue := s.frameQueue ++ [FrameData.copy src size] })) := by
  constructor
  · intro hbad
    simp only [addFrameToQueue, if_pos hbad]
  · intro src hrec hsome hpos
    subst hsome
    have hcond : ¬ (s.isRecording = false ∨ (some src : Option (List Nat)) = none ∨ size ≤ 0) := by
      push_neg
      refine ⟨by simp [hrec], by simp, ?_⟩
      omega
    simp only [addFrameToQueue, if_neg hcond]

/-- C6 witness: a rejected push while idle and an accepted push while
recording. -/
theorem addFrameToQueue_spec_witness :
    addFrameToQueue (RecState.mk false "" 0 0 0 0 false [] false true false)
        (some [5, 6]) 2 =
      (false, RecState.mk false "" 0 0 0 0 false [] false true false)
    ∧ addFrameToQueue (RecState.mk true "" 0 0 0 0 false [] false true true)
        (some [5, 6]) 2 =
      (true, RecState.mk true "" 0 0 0 0 false [FrameData.mk [5, 6] 2] false true true) :=
  ⟨(addFrameToQueue_spec (RecState.mk false "" 0 0 0 0 false [] false true false)
      (some [5, 6]) 2).1 (Or.inl rfl),
   (addFrameToQueue_spec (RecState.mk true "" 0 0 0 0 false [] false true true)
      (some [5, 6]) 2).2 [5, 6] rfl rfl (by norm_num)⟩

/-! ## Claim C7 -/

/-- C7: the claim fails on the code. In a run where the driver grants all
buffers, querying succeeds and the mmap of buffer 1 fails after buffer 0 was
mapped, `v4l2_init_buffer` returns -1 with buffer 0 still mapped (the source
has no munmap on any path; its comments mark the cleanup as TODO); and in a
run where the driver grants only 1 of the 3 requested buffers but the
queries and mappings succeed, the function returns 0 (success) instead of an
error, since the short-count check is commented out. -/
theorem v4l2_init_buffer_leak :
    v4l2_init_buffer (DriverBehavior.mk true 3 (fun _ => true) (fun i => i == 0)) =
      (-1, [0])
    ∧ v4l2_init_buffer (DriverBehavior.mk true 1 (fun _ => true) (fun _ => true)) =
      (0, [0, 1, 2]) := by
  constructor
  · rfl
  · rfl

/-! ## Claim C8 -/

/-- C8: the finalized segment name is exactly the start and end times in
HH:mm format joined by a dash with extension .mp4 (start "10:30", end
"11:00" gives "10:30-11:00.mp4"); when the target name already exists the
rename is skipped, the working filename is kept unchanged, and no error is
raised on any path. -/
theorem finalizeSegment_spec (cur dirPath startT endT : String)
    (targetExists renameOk : Bool) :
    newVideoFileName "10:30" "11:00" = "10:30-11:00.mp4"
    ∧ newVideoFileName startT endT = startT ++ "-" ++ endT ++ ".mp4"
    ∧ (targetExists = true →
        finalizeSegment cur dirPath startT endT targetExists renameOk =
          RenameOutcome.mk cur false false)
    ∧ (cur ≠ "" → targetExists = false → renameOk = true →
        finalizeSegment cur dirPath startT endT targetExists renameOk =
          RenameOutcome.mk (dirPath ++ "/" ++ (startT ++ "-" ++ endT ++ ".mp4")) true false)
    ∧ (finalizeSegment cur dirPath startT endT targetExists renameOk).errorRaised = false := by
  refine ⟨by decide, rfl, ?_, ?_, ?_⟩
  · intro hex
    by_cases hcur : cur = ""
    · simp [finalizeSegment, hcur]
    · simp [finalizeSegment, hcur, hex]
  · intro hcur hex hren
    simp [finalizeSegment, hcur, hex, hren, newVideoFileName]
  · by_cases hcur : cur = ""
    · simp [finalizeSegment, hcur]
    · by_cases hex : targetExists = true
      · simp [finalizeSegment, hcur, hex]
      · simp only [Bool.not_eq_true] at hex
        by_cases hren : renameOk = true
        · simp [finalizeSegment, hcur, hex, hren]
        · simp only [Bool.not_eq_true] at hren
          simp [finalizeSegment, hcur, hex, hren]

/-- C8 witness: concrete skip-on-existing and rename-on-fresh runs. -/
theorem finalizeSegment_spec_witness :
    finalizeSegment "/d/10:30.mp4" "/d" "10:30" "11:00" true true =
      RenameOutcome.mk "/d/10:30.mp4" false false
    ∧ finalizeSegment "/d/10:30.mp4" "/d" "10:30" "11:00" false true =
      RenameOutcome.mk "/d/10:30-11:00.mp4" true false :=
  ⟨(finalizeSegment_spec "/d/10:30.mp4" "/d" "10:30" "11:00" true true).2.2.1 rfl,
   (finalizeSegment_spec "/d/10:30.mp4" "/d" "10:30" "11:00" false true).2.2.2.1
     (by decide) rfl rfl⟩

/-! ## Claim C9 -/

theorem applyOp_percent_bounds (s : SMState) (op : SMOp)
    (h1 : 0 ≤ s.minFreeSpacePercent) (h2 : s.minFreeSpacePercent ≤ 100) :
    0 ≤ (applyOp s op).minFreeSpacePercent ∧ (applyOp s op).minFreeSpacePercent ≤ 100 := by
  cases op with
  | setPercent p =>
    simp only [applyOp, setMinFreeSpacePercent]
    split
    · omega
    · split
      · omega
      · constructor
        · omega
        · omega
  | setPath path => exact ⟨h1, h2⟩
  | startAuto i =>
    simp only [applyOp, startAutoCheck]
    split
    · exact ⟨h1, h2⟩
    · exact ⟨h1, h2⟩
  | stopAuto => exact ⟨h1, h2⟩
  | checkTick => exact ⟨h1, h2⟩

theorem foldl_percent_bounds (ops : List SMOp) : ∀ s : SMState,
    0 ≤ s.minFreeSpacePercent → s.minFreeSpacePercent ≤ 100 →
    0 ≤ (List.foldl applyOp s ops).minFreeSpacePercent
    ∧ (List.foldl applyOp s ops).minFreeSpacePercent ≤ 100 := by
  induction ops with
  | nil =>
    intro s h1 h2
    exact ⟨h1, h2⟩
  | cons op ops ih =>
    intro s h1 h2
    have hstep := applyOp_percent_bounds s op h1 h2
    simpa [List.foldl_cons] using ih (applyOp s op) hstep.1 hstep.2

/-- C9: setMinFreeSpacePercent stores exactly min(100, max(0, p)) — clamping
out-of-range values to the nearest bound — the constructor sets the
threshold to 10, and 0 ≤ threshold ≤ 100 holds after construction and after
every sequence of retention-manager operations. -/
theorem setMinFreeSpacePercent_clamps (p : Int) (s : SMState) (path : String)
    (ops : List SMOp) :
    (setMinFreeSpacePercent s p).minFreeSpacePercent = min 100 (max 0 p)
    ∧ (mkStorageManager path).minFreeSpacePercent = 10
    ∧ 0 ≤ (List.foldl applyOp (mkStorageManager path) ops).minFreeSpacePercent
    ∧ (List.foldl applyOp (mkStorageManager path) ops).minFreeSpacePercent ≤ 100 := by
  refine ⟨?_, rfl, ?_, ?_⟩
  · simp only [setMinFreeSpacePercent]
    split
    · rename_i hlt
      omega
    · split
      · rename_i hgt
        omega
      · rename_i hge hle
        omega
  · exact (foldl_percent_bounds ops (mkStorageManager path) (by simp [mkStorageManager]) (by simp [mkStorageManager])).1
  · exact (foldl_percent_bounds ops (mkStorageManager path) (by simp [mkStorageManager]) (by simp [mkStorageManager])).2

/-! ## Claim C10 -/

/-- C10: for every interval ≤ 0, startAutoCheck is a complete no-op: it does
not run the immediate check-and-clean cycle (second component false) and
leaves the state, including the periodic timer, exactly as it was. -/
theorem startAutoCheck_nonpositive_noop (s : SMState) (interval : Int)
    (h : interval ≤ 0) :
    startAutoCheck s interval = (s, false) := by
  simp [startAutoCheck, h]

/-- C10 witness: the theorem at interval 0 and at a negative interval. -/
theorem startAutoCheck_nonpositive_noop_witness :
    startAutoCheck (mkStorageManager "/mnt/TFcard") 0 = (mkStorageManager "/mnt/TFcard", false)
    ∧ startAutoCheck (mkStorageManager "/mnt/TFcard") (-5) =
        (mkStorageManager "/mnt/TFcard", false) :=
  ⟨startAutoCheck_nonpositive_noop (mkStorageManager "/mnt/TFcard") 0 (by norm_num),
   startAutoCheck_nonpositive_noop (mkStorageManager "/mnt/TFcard") (-5) (by norm_num)⟩

end VideoMonitor
